import Mathlib

/-!
Shallow embedding of `internal/build/imgsrc/dockerfile_builder.go`: the
dockerfile build orchestrator (`Run`), the build-context packager
(`makeBuildContext`), the classic-build JSON status stream consumer
(`runClassicBuild` via `jsonmessage.DisplayJSONMessagesStream`), the
session-build solve-request construction (`solveOptFromImageOptions`), and
the registry push with retry (`pushToFly`, using `retry-go/v4` with
`Attempts(0)`, `FixedDelay`, `Delay(3s)`, `Context(ctx)` and an `OnRetry`
hook).

External collaborators (the docker daemon, the filesystem, path helpers
defined in other packages of the repository, tracing, rendering) are
modelled as oracle fields of an environment record; the control flow,
phase-timer calls, error wrapping and classification are translated
directly from the Go source.  Machine-level concerns (real time, the
actual tar bytes) are abstracted: a build context is represented by the
archive options that determine it, and the retry loop takes a fuel
parameter because `retry.Attempts(0)` means unlimited attempts.
-/

namespace Imgsrc

/-- Go `error` values as they occur in this file: `jsonmessage.JSONError`
(carrying its `Message`), the `RegistryUnauthorizedError{Tag: tag}` produced
by push classification, a context cancellation error (`ctx.Err()`),
`errors.Wrap(inner, msg)` wrappers, and plain message errors from
`fmt.Errorf`. -/
inductive GoError where
  | jsonError (message : String)
  | registryUnauthorized (tag : String)
  | contextErr
  | wrapped (msg : String) (inner : GoError)
  | plain (msg : String)
  deriving Repr, DecidableEq

/-- `errors.As(err, &msgerr)` for `*jsonmessage.JSONError`: walks the wrap
chain and returns the message of the innermost JSONError found.
`errors.Wrap` from `pkg/errors` supports unwrapping. -/
def asJSONError : GoError → Option String
  | .jsonError m => some m
  | .wrapped _ e => asJSONError e
  | _ => none

/-- The exact registry denial message tested in `pushToFly`. -/
def deniedMessage : String := "denied: requested access to the resource is denied"

/-- The fields of `ImageOptions` that `dockerfile_builder.go` reads.
Go string-keyed maps (`BuildArgs`, `Label`, `BuildSecrets`) are represented
as association lists whose keys are distinct. -/
structure ImageOptions where
  WorkingDir : String
  DockerfilePath : String
  IgnorefilePath : String
  Tag : String
  Target : String
  NoCache : Bool
  Publish : Bool
  BuildArgs : List (String × String)
  Label : List (String × String)
  BuildSecrets : List (String × String)

/-- `DeploymentImage`, the image handle `Run` returns. -/
structure DeploymentImage where
  ID : String
  Tag : String
  Size : Int
  deriving Repr, DecidableEq

/-- The part of `types.Info` used by `Run` (content irrelevant to control
flow; only success/failure of `docker.Info` matters). -/
structure ServerInfo where
  serverVersion : String
  osType : String
  architecture : String
  osVersion : String
  deriving Repr, DecidableEq

/-- The part of `docker.ImageInspectWithRaw`'s result that `Run` reads. -/
structure InspectResult where
  id : String
  size : Int
  deriving Repr, DecidableEq

/-- Phase-timer calls on the `build` recorder, in the order `Run` makes
them. -/
inductive PhaseEvent where
  | buildStart
  | buildFinish
  | builderInitStart
  | builderInitFinish
  | contextBuildStart
  | contextBuildFinish
  | imageBuildStart
  | imageBuildFinish
  | pushStart
  | pushFinish
  deriving Repr, DecidableEq

/-- Every phase-timer `Start` call has the same count as its matching
`Finish` call. -/
def phaseBalanced (es : List PhaseEvent) : Bool :=
  (es.count .buildStart == es.count .buildFinish) &&
  (es.count .builderInitStart == es.count .builderInitFinish) &&
  (es.count .contextBuildStart == es.count .contextBuildFinish) &&
  (es.count .imageBuildStart == es.count .imageBuildFinish) &&
  (es.count .pushStart == es.count .pushFinish)

/-! ## The push retry loop

`pushToFly` calls `retry.Do(pushFn, retry.Context(ctx), retry.Attempts(0),
retry.Delay(3*time.Second), retry.DelayType(retry.FixedDelay),
retry.OnRetry(...))`.  In `retry-go/v4`, `Attempts(0)` selects the
retry-until-success loop: each failed attempt (every error produced by
`pushFn` is recoverable and the default `retryIf` accepts it) is reported
to the `OnRetry` hook and then the loop waits for the fixed delay, aborting
with `ctx.Err()` if the context is done; `retry.Do` also returns `ctx.Err()`
immediately when the context is already done on entry.  The oracle
`attemptErr i` gives the error (or success) of the i-th `pushFn` call and
`ctxDoneDuringWait i` says whether the context becomes done during the wait
that follows the i-th failure. -/

structure RetryEnv where
  attemptErr : Nat → Option GoError
  ctxDoneInitially : Bool
  ctxDoneDuringWait : Nat → Bool

/-- Result of the retry loop: the terminal error (`none` = success), the
errors reported to the `OnRetry` hook in order, and the delays waited (in
seconds).  `hung` means the unlimited loop has not terminated within the
fuel provided to the model. -/
inductive RetryOutcome where
  | done (err : Option GoError) (onRetryErrs : List GoError) (waits : List Nat)
  | hung (onRetryErrs : List GoError) (waits : List Nat)
  deriving Repr, DecidableEq

/-- `retry.Delay(3*time.Second)` with `retry.DelayType(retry.FixedDelay)`:
every wait is 3 seconds. -/
def fixedDelaySecs : Nat := 3

def retryLoopAux (env : RetryEnv) : Nat → Nat → List GoError → List Nat → RetryOutcome
  | 0, _, log, waits => .hung log waits
  | fuel + 1, i, log, waits =>
    match env.attemptErr i with
    | none => .done none log waits
    | some e =>
      let log := log ++ [e]
      if env.ctxDoneDuringWait i then
        .done (some .contextErr) log waits
      else
        retryLoopAux env fuel (i + 1) log (waits ++ [fixedDelaySecs])

/-- `retry.Do` with `Attempts(0)`. -/
def retryDo (env : RetryEnv) (fuel : Nat) : RetryOutcome :=
  if env.ctxDoneInitially then .done (some .contextErr) [] []
  else retryLoopAux env fuel 0 [] []

/-- Terminal error of a retry outcome (`none` when the loop is still
running). -/
def retryOutcomeErr : RetryOutcome → Option (Option GoError)
  | .done e _ _ => some e
  | .hung _ _ => none

/-- The tail of `pushToFly` after `retry.Do` returns: `errors.As(err,
&msgerr)` followed by the denial test, and otherwise the literal
`return nil` that ends the function. -/
def pushClassify (tag : String) : Option GoError → Option GoError
  | some e =>
    match asJSONError e with
    | some m =>
      if m = deniedMessage then some (.registryUnauthorized tag) else none
    | none => none
  | none => none

/-- `pushToFly`: run the retry loop, then classify.  Returns `none` when the
unlimited retry loop has not terminated within the fuel (the real function
is still blocked in `retry.Do`); otherwise `some r` where `r` is the error
`pushToFly` returns (`some r = some none` is Go `nil`). -/
def pushToFly (env : RetryEnv) (fuel : Nat) (tag : String) : Option (Option GoError) :=
  match retryDo env fuel with
  | .hung _ _ => none
  | .done err _ _ => some (pushClassify tag err)

/-! ## The classic build status stream -/

/-- The `Aux` payload of a `jsonmessage.JSONMessage`: either it unmarshals
into a `types.BuildResult` carrying the image id, or `json.Unmarshal` fails
(in which case `idCallback` logs the failure and still assigns the
zero-value `aux.ID`, i.e. the empty string). -/
inductive AuxPayload where
  | wellFormed (id : String)
  | malformed
  deriving Repr, DecidableEq

/-- A decoded message of the build response stream: an optional `Aux`
payload and an optional stream error. -/
structure JSONMessage where
  aux : Option AuxPayload
  error : Option String
  deriving Repr, DecidableEq

/-- `jsonmessage.DisplayJSONMessagesStream(resp.Body, ..., idCallback)` as
called by `runClassicBuild`: for each message the aux callback fires first
(updating the captured `imageID`), then a message error aborts the stream.
Returns the stream error (if any) and the final captured `imageID`. -/
def displayJSONMessagesStream : List JSONMessage → String → Option GoError × String
  | [], imageID => (none, imageID)
  | m :: rest, imageID =>
    let imageID :=
      match m.aux with
      | some (.wellFormed i) => i
      | some .malformed => ""
      | none => imageID
    match m.error with
    | some msg => (some (.jsonError msg), imageID)
    | none => displayJSONMessagesStream rest imageID

/-! ## Solve request construction (`solveOptFromImageOptions`) -/

/-- Slash components of a path. -/
def splitSlash : List Char → List (List Char)
  | [] => [[]]
  | c :: cs =>
    let r := splitSlash cs
    if c = '/' then [] :: r
    else
      match r with
      | [] => [[c]]
      | h :: t => (c :: h) :: t

/-- Go `filepath.Base` (slash paths). -/
def filepathBase (p : String) : String :=
  let parts := ((splitSlash p.data).map String.mk).filter (fun s => s ≠ "")
  match parts.getLast? with
  | some s => s
  | none => if p.data.head? = some '/' then "/" else "."

/-- Go `filepath.Dir` (slash paths). -/
def filepathDir (p : String) : String :=
  let parts := (splitSlash p.data).map String.mk
  let init := parts.dropLast
  if init.isEmpty then "."
  else
    let joined := String.intercalate ("/") init
    if joined = "" then "/" else joined

/-- Assignment to a Go `map[string]string`, as a function update. -/
def mapUpd (m : String → Option String) (k v : String) : String → Option String :=
  fun q => if q = k then some v else m q

/-- The `for k, v := range opts.Label` loop writing `attrs["label:"+k] = v`. -/
def addLabels (l : List (String × String)) (m : String → Option String) :
    String → Option String :=
  l.foldl (fun acc kv => mapUpd acc ("label:" ++ kv.1) kv.2) m

/-- The `for k, v := range buildArgs` loop writing
`attrs["build-arg:"+k] = *v`, skipping nil values. -/
def addBuildArgs (l : List (String × Option String)) (m : String → Option String) :
    String → Option String :=
  l.foldl
    (fun acc kv =>
      match kv.2 with
      | none => acc
      | some v => mapUpd acc ("build-arg:" ++ kv.1) v)
    m

/-- One entry of `client.SolveOpt.Exports`. -/
structure ExportEntry where
  type : String
  attrs : List (String × String)
  deriving Repr, DecidableEq

/-- The fields of `client.SolveOpt` that `solveOptFromImageOptions` sets
(the session attachments added later in `runBuildKitBuild` are not part of
this function). -/
structure SolveOpt where
  frontend : String
  frontendAttrs : String → Option String
  localDirs : List (String × String)
  exports : List ExportEntry

/-- The attrs map literal at the top of `solveOptFromImageOptions`:
`filename`, `target` and the `linux/amd64` platform pin. -/
def baseAttrs (opts : ImageOptions) (dockerfilePath : String) : String → Option String :=
  fun q =>
    if q = "filename" then some (filepathBase dockerfilePath)
    else if q = "target" then some opts.Target
    else if q = "platform" then some ("linux/amd64")
    else none

/-- `solveOptFromImageOptions`: the attrs map literal (`filename`, `target`,
`platform`), the redundant re-assignment of `target`, the conditional
`no-cache` marker, the label and build-arg loops, fixed frontend
`dockerfile.v0`, the two local directory bindings, and the single `moby`
export entry named by the tag. -/
def solveOptFromImageOptions (opts : ImageOptions) (dockerfilePath : String)
    (buildArgs : List (String × Option String)) : SolveOpt :=
  let attrs1 := mapUpd (baseAttrs opts dockerfilePath) "target" opts.Target
  let attrs2 := if opts.NoCache then mapUpd attrs1 "no-cache" "" else attrs1
  let attrs3 := addLabels opts.Label attrs2
  let attrs4 := addBuildArgs buildArgs attrs3
  { frontend := "dockerfile.v0"
    frontendAttrs := attrs4
    localDirs := [("dockerfile", filepathDir dockerfilePath), ("context", opts.WorkingDir)]
    exports := [{ type := "moby", attrs := [("name", opts.Tag)] }] }

/-! ## Build context packaging -/

/-- The `archiveOptions` struct handed to `archiveDirectory`; the build
context stream is determined by these options, so the model returns them in
place of the tar stream. -/
structure ArchiveOptions where
  sourcePath : String
  compressed : Bool
  additions : List (String × String)
  exclusions : List String
  deriving Repr, DecidableEq

/-! ## The environment of `Run`

Collaborators outside `dockerfile_builder.go` (the docker client factory,
filesystem helpers `helpers.FileExists` / `ResolveDockerfile` /
`isPathInRoot` / `readDockerignore` / `archiveDirectory` defined in other
files of the repository, `filepath` functions, and the daemon itself) appear
as oracle fields.  `imageBuild` is the decoded message stream of
`docker.ImageBuild`'s response body; `buildkitBuild` is the digest produced
by the session-build path (whose internal concurrency is not modelled
here); `push` drives the push retry loop. -/
structure RunEnv where
  modeAvailable : Bool
  isLocal : Bool
  isRemote : Bool
  fileExists : String → Bool
  resolveDockerfile : String → String
  isPathInRoot : String → String → Bool
  rel : String → String → Except GoError String
  toSlash : String → String
  buildFn : Except GoError Unit
  buildkitEnabled : Except GoError Bool
  readFile : String → Except GoError String
  readDockerignore : String → String → String → Except GoError (List String)
  archiveDirectory : ArchiveOptions → Except GoError Unit
  dockerInfo : Except GoError ServerInfo
  imageBuild : Except GoError (List JSONMessage)
  buildkitBuild : Except GoError String
  push : RetryEnv
  imageInspect : String → Except GoError InspectResult

/-- `makeBuildContext(dockerfile, opts, isRemote)`: when the dockerfile is
outside the context dir its bytes are injected under the canonical archive
name `Dockerfile` (and the relative path stays empty); otherwise the
root-relative slash path is computed and no content is injected.  Then the
ignore file is read and the directory archived. -/
def makeBuildContext (env : RunEnv) (dockerfile : String) (opts : ImageOptions)
    (isRemote : Bool) : Except GoError ArchiveOptions :=
  let archiveOpts : ArchiveOptions :=
    { sourcePath := opts.WorkingDir, compressed := isRemote
      additions := [], exclusions := [] }
  let step : Except GoError (ArchiveOptions × String) :=
    if !env.isPathInRoot dockerfile opts.WorkingDir then
      match env.readFile dockerfile with
      | .error e => .error (.wrapped "error reading Dockerfile" e)
      | .ok dockerfileData =>
        .ok ({ archiveOpts with additions := [("Dockerfile", dockerfileData)] }, "")
    else
      match env.rel opts.WorkingDir dockerfile with
      | .error e => .error e
      | .ok p => .ok (archiveOpts, env.toSlash p)
  match step with
  | .error e => .error e
  | .ok (archiveOpts, relativedockerfilePath) =>
    match env.readDockerignore opts.WorkingDir opts.IgnorefilePath relativedockerfilePath with
    | .error e => .error (.wrapped "error reading .dockerignore" e)
    | .ok excludes =>
      let archiveOpts := { archiveOpts with exclusions := excludes }
      match env.archiveDirectory archiveOpts with
      | .error e => .error (.wrapped "error archiving build context" e)
      | .ok _ => .ok archiveOpts

/-- Lines 137-148 of `Run`: the root-relative dockerfile path passed to the
classic backend — computed (and slash-converted) only when the dockerfile
is inside the working directory, left empty otherwise. -/
def relDockerfileCalc (env : RunEnv) (dockerfile : String) (opts : ImageOptions) :
    Except GoError String :=
  if env.isPathInRoot dockerfile opts.WorkingDir then
    match env.rel opts.WorkingDir dockerfile with
    | .error e => .error e
    | .ok p => .ok (env.toSlash p)
  else
    .ok ""

/-- `normalizeBuildArgsForDocker`: wraps every value in a pointer; never
fails. -/
def normalizeBuildArgsForDocker (buildArgs : List (String × String)) :
    Except GoError (List (String × Option String)) :=
  .ok (buildArgs.map fun kv => (kv.1, some kv.2))

/-- `runClassicBuild`: submit the build request, then consume the response
as a JSON message stream; the image id is captured only through the aux
message callback. -/
def runClassicBuild (env : RunEnv) (opts : ImageOptions) (dockerfilePath : String)
    (buildArgs : List (String × Option String)) : Except GoError String :=
  match env.imageBuild with
  | .error e => .error (.wrapped "error building with docker" e)
  | .ok msgs =>
    match displayJSONMessagesStream msgs "" with
    | (some e, _) => .error (.wrapped "error rendering build status stream" e)
    | (none, imageID) => .ok imageID

/-- The resolution of the dockerfile path at the top of `Run`: an explicit
override must exist (else a not-found error); otherwise
`ResolveDockerfile(opts.WorkingDir)` is consulted and may yield the empty
string. -/
def resolveStep (env : RunEnv) (opts : ImageOptions) : Except GoError String :=
  if opts.DockerfilePath = "" then
    .ok (env.resolveDockerfile opts.WorkingDir)
  else if env.fileExists opts.DockerfilePath then
    .ok opts.DockerfilePath
  else
    .error (.plain ("dockerfile \x27" ++ opts.DockerfilePath ++ "\x27 not found"))

/-- How a `Run` invocation ends: a normal return (image handle, warning
string, error), `os.Exit(code)`, or still blocked inside the unlimited push
retry loop (model fuel exhausted). -/
inductive RunOutcome where
  | ret (img : Option DeploymentImage) (warning : String) (error : Option GoError)
  | exited (code : Nat)
  | blocked
  deriving Repr, DecidableEq

/-- The outcome of `Run` together with the phase-timer calls made, in
order. -/
structure RunResult where
  outcome : RunOutcome
  events : List PhaseEvent
  deriving Repr, DecidableEq

/-- Lines 211-295 of `Run`: `ImageBuildStart`, the server-info query, build
arg normalization, exactly one driver, `ImageBuildFinish`/`BuildFinish`,
then either the push path (with `os.Exit(1)` after a successful publish) or
the image inspection producing the returned handle. -/
def runImageBuild (env : RunEnv) (fuel : Nat) (opts : ImageOptions)
    (relDockerfile : String) (buildkit : Bool) (ev : List PhaseEvent) : RunResult :=
  let ev5 := ev ++ [.imageBuildStart]
  match env.dockerInfo with
  | .error e =>
    { outcome := .ret none "" (some (.wrapped "error fetching docker server info" e))
      events := ev5 ++ [.imageBuildFinish, .buildFinish] }
  | .ok _ =>
    match normalizeBuildArgsForDocker opts.BuildArgs with
    | .error e =>
      { outcome := .ret none "" (some (.wrapped "error parsing build args" e))
        events := ev5 ++ [.imageBuildFinish, .buildFinish] }
    | .ok buildArgs =>
      let built : Except GoError String :=
        if buildkit then env.buildkitBuild
        else runClassicBuild env opts relDockerfile buildArgs
      match built with
      | .error e =>
        { outcome := .ret none "" (some (.wrapped "error building" e))
          events := ev5 ++ [.imageBuildFinish, .buildFinish] }
      | .ok imageID =>
        let ev6 := ev5 ++ [.imageBuildFinish, .buildFinish]
        if opts.Publish then
          let ev7 := ev6 ++ [.pushStart]
          match pushToFly env.push fuel opts.Tag with
          | none => { outcome := .blocked, events := ev7 }
          | some (some e) =>
            { outcome := .ret none "" (some e), events := ev7 ++ [.pushFinish] }
          | some none =>
            { outcome := .exited 1, events := ev7 ++ [.pushFinish] }
        else
          match env.imageInspect imageID with
          | .error e =>
            { outcome := .ret none "" (some (.wrapped "count not find built image" e))
              events := ev6 }
          | .ok img =>
            { outcome := .ret (some { ID := img.id, Tag := opts.Tag, Size := img.size }) "" none
              events := ev6 }

/-- Lines 181-207 of `Run`: the explicit build context is only created on
the classic path, bracketed by the context-build phase timer. -/
def runAfterInit (env : RunEnv) (fuel : Nat) (opts : ImageOptions)
    (dockerfile relDockerfile : String) (buildkit : Bool) (ev2 : List PhaseEvent) :
    RunResult :=
  if buildkit then
    runImageBuild env fuel opts relDockerfile true ev2
  else
    let ev3 := ev2 ++ [.contextBuildStart]
    match makeBuildContext env dockerfile opts env.isRemote with
    | .error e =>
      { outcome := .ret none "" (some e)
        events := ev3 ++ [.buildFinish, .contextBuildFinish] }
    | .ok _ =>
      runImageBuild env fuel opts relDockerfile false (ev3 ++ [.contextBuildFinish])

/-- `Run` of the dockerfile builder.  The phase-timer calls appear in the
event list exactly in source order; note that the `filepath.Rel` error exit
(lines 140-144 of the source) returns without a `BuildFinish`. -/
def Run (env : RunEnv) (fuel : Nat) (opts : ImageOptions) : RunResult :=
  let ev0 : List PhaseEvent := [.buildStart]
  if env.modeAvailable = false then
    { outcome := .ret none "" none, events := ev0 ++ [.buildFinish] }
  else
    match resolveStep env opts with
    | .error e => { outcome := .ret none "" (some e), events := ev0 ++ [.buildFinish] }
    | .ok dockerfile =>
      if dockerfile = "" then
        { outcome := .ret none "" none, events := ev0 ++ [.buildFinish] }
      else
        match relDockerfileCalc env dockerfile opts with
        | .error e => { outcome := .ret none "" (some e), events := ev0 }
        | .ok relDockerfile =>
          let ev1 := ev0 ++ [.builderInitStart]
          match env.buildFn with
          | .error e =>
            { outcome := .ret none "" (some (.wrapped "error connecting to docker" e))
              events := ev1 ++ [.buildFinish, .builderInitFinish] }
          | .ok _ =>
            match env.buildkitEnabled with
            | .error e =>
              { outcome := .ret none "" (some (.wrapped "error checking for buildkit support" e))
                events := ev1 ++ [.buildFinish, .builderInitFinish] }
            | .ok buildkit =>
              runAfterInit env fuel opts dockerfile relDockerfile buildkit
                (ev1 ++ [.builderInitFinish])

/-! ## Concrete environments used to evaluate the model -/

/-- A push whose first attempt succeeds. -/
def pushOk : RetryEnv :=
  { attemptErr := fun _ => none
    ctxDoneInitially := false
    ctxDoneDuringWait := fun _ => false }

/-- A benign environment: local daemon available, a dockerfile found at the
working directory root, every collaborator succeeding, classic backend, a
single terminal stream message carrying the image id. -/
def envBase : RunEnv :=
  { modeAvailable := true
    isLocal := true
    isRemote := false
    fileExists := fun _ => true
    resolveDockerfile := fun _ => "Dockerfile"
    isPathInRoot := fun _ _ => true
    rel := fun _ df => .ok df
    toSlash := fun p => p
    buildFn := .ok ()
    buildkitEnabled := .ok false
    readFile := fun _ => .ok "FROM scratch"
    readDockerignore := fun _ _ _ => .ok []
    archiveDirectory := fun _ => .ok ()
    dockerInfo := .ok { serverVersion := "24.0", osType := "linux", architecture := "x86_64", osVersion := "" }
    imageBuild := .ok [{ aux := some (.wellFormed "sha256:abc"), error := none }]
    buildkitBuild := .ok "sha256:abc"
    push := pushOk
    imageInspect := fun i => .ok { id := i, size := 1024 } }

def optsBase : ImageOptions :=
  { WorkingDir := "/app"
    DockerfilePath := ""
    IgnorefilePath := ""
    Tag := "img:1"
    Target := ""
    NoCache := false
    Publish := false
    BuildArgs := []
    Label := []
    BuildSecrets := [] }

/-! ## Helper lemmas -/

theorem string_append_cancel_left {p a b : String} (h : p ++ a = p ++ b) : a = b := by
  apply String.ext
  have hd := congrArg String.data h
  rw [String.data_append, String.data_append] at hd
  exact List.append_cancel_left hd

theorem append_ne_of_take (p s q : String)
    (h : q.data.take p.data.length ≠ p.data) : p ++ s ≠ q := by
  intro he
  apply h
  rw [← he, String.data_append, List.take_left]

theorem append_ne_append_of_take (p₁ p₂ s₁ s₂ : String) (n : Nat)
    (h₁ : n ≤ p₁.data.length) (h₂ : n ≤ p₂.data.length)
    (h : p₁.data.take n ≠ p₂.data.take n) : p₁ ++ s₁ ≠ p₂ ++ s₂ := by
  intro he
  apply h
  have hd := congrArg String.data he
  rw [String.data_append, String.data_append] at hd
  calc p₁.data.take n = (p₁.data ++ s₁.data).take n := (List.take_append_of_le_length h₁).symm
    _ = (p₂.data ++ s₂.data).take n := by rw [hd]
    _ = p₂.data.take n := List.take_append_of_le_length h₂

/-- One unfolding step of the retry loop when fuel remains. -/
theorem retryLoopAux_succ (env : RetryEnv) (fuel i : Nat) (log : List GoError)
    (waits : List Nat) (hfuel : 0 < fuel) :
    retryLoopAux env fuel i log waits =
      match env.attemptErr i with
      | none => .done none log waits
      | some e =>
        if env.ctxDoneDuringWait i then .done (some .contextErr) (log ++ [e]) waits
        else retryLoopAux env (fuel - 1) (i + 1) (log ++ [e]) (waits ++ [fixedDelaySecs]) := by
  cases fuel with
  | zero => omega
  | succ f => rfl

/-- If every attempt fails and the context becomes done during the wait
after attempt `k`, the loop terminates with the context error. -/
theorem retryLoopAux_cancelled (env : RetryEnv) (k : Nat) (e : GoError)
    (hfail : ∀ i, env.attemptErr i = some e)
    (hdw : ∀ i, env.ctxDoneDuringWait i = (i == k)) :
    ∀ fuel i log waits, i ≤ k → k - i < fuel →
      ∃ log2 waits2, retryLoopAux env fuel i log waits = .done (some .contextErr) log2 waits2 := by
  intro fuel
  induction fuel with
  | zero => intro i log waits hik hf; omega
  | succ f ih =>
    intro i log waits hik hf
    rw [retryLoopAux_succ env (f + 1) i log waits (Nat.succ_pos f), hfail i]
    by_cases hk : i = k
    · have : env.ctxDoneDuringWait i = true := by rw [hdw i, hk]; simp
      simp only [this, if_true]
      exact ⟨_, _, rfl⟩
    · have : env.ctxDoneDuringWait i = false := by rw [hdw i]; simp [hk]
      simp only [this, Bool.false_eq_true, if_false]
      exact ih (i + 1) _ _ (by omega) (by omega)

/-! ## Claim C1 -/

/-- Claim C1: for every build request, if the docker daemon is unavailable,
or no dockerfile path override is given and no dockerfile is found under
the working directory, `Run` returns `(nil, "", nil)` — a skip, not an
error (and the opened build phase timer is closed). -/
theorem c1_run_skips (env : RunEnv) (fuel : Nat) (opts : ImageOptions)
    (h : env.modeAvailable = false ∨
      (opts.DockerfilePath = "" ∧ env.resolveDockerfile opts.WorkingDir = "")) :
    Run env fuel opts =
      { outcome := .ret none "" none, events := [.buildStart, .buildFinish] } := by
  rcases h with h | ⟨h1, h2⟩
  · simp [Run, h]
  · unfold Run
    by_cases hm : env.modeAvailable = false
    · simp [hm]
    · simp [hm, resolveStep, h1, h2]

/-- Witness for C1: a concrete spec with the daemon unavailable. -/
theorem c1_run_skips_witness :
    Run { envBase with modeAvailable := false } 1 optsBase =
      { outcome := .ret none "" none, events := [.buildStart, .buildFinish] } :=
  c1_run_skips _ 1 _ (Or.inl rfl)

/-! ## Claim C2

Evaluating the embedded `Run` on a spec whose dockerfile lies inside the
working directory but whose `filepath.Rel` computation fails (as happens for
a relative working directory and an absolute dockerfile override, e.g.
`Rel(".", "/app/Dockerfile")`): `Run` returns through the error exit at
lines 140-144 of the source with the `BuildStart` timer never finished, so
the start/finish counts differ on this exit path. -/

def optsC2 : ImageOptions :=
  { optsBase with WorkingDir := ".", DockerfilePath := "/app/Dockerfile" }

def envC2 : RunEnv :=
  { envBase with
    rel := fun _ _ => .error (.plain "Rel: cannot make /app/Dockerfile relative to .") }

/-- Claim C2 is violated by the code: on the `filepath.Rel` error exit,
`Run` returns having called `BuildStart` with no matching `BuildFinish`. -/
theorem c2_timer_leak_on_rel_error :
    Run envC2 1 optsC2 =
      { outcome := .ret none ""
          (some (.plain "Rel: cannot make /app/Dockerfile relative to ."))
        events := [.buildStart] } ∧
    phaseBalanced (Run envC2 1 optsC2).events = false := by
  constructor <;> rfl

/-! ## Claim C3 -/

/-- Claim C3 is violated by the code: when the push retry loop ends with a
terminal error that is not the access-denied registry response, `pushToFly`
does not return that error — the function ends in `return nil`, so the
terminal error is discarded and `pushToFly` reports success. -/
theorem c3_pushToFly_swallows_terminal_error (env : RetryEnv) (fuel : Nat) (tag : String)
    (e : GoError) (log : List GoError) (waits : List Nat)
    (hdone : retryDo env fuel = .done (some e) log waits)
    (hnd : asJSONError e ≠ some deniedMessage) :
    pushToFly env fuel tag = some none := by
  have hc : pushClassify tag (some e) = none := by
    unfold pushClassify
    cases hje : asJSONError e with
    | none => simp [hje]
    | some m =>
      simp only [hje]
      rw [if_neg]
      intro hm
      exact hnd (by rw [hje, hm])
  unfold pushToFly
  rw [hdone]
  show some (pushClassify tag (some e)) = some none
  rw [hc]

def pushErrC3 : GoError := .wrapped "error pushing image to registry" (.plain "net timeout")

/-- A push whose attempts fail with a transient network error until the
caller context is cancelled during the first wait. -/
def pushEnvC3 : RetryEnv :=
  { attemptErr := fun _ => some pushErrC3
    ctxDoneInitially := false
    ctxDoneDuringWait := fun i => i == 0 }

/-- Witness for C3: the loop terminates with the (non-denied) context
error, yet `pushToFly` returns nil. -/
theorem c3_pushToFly_swallows_terminal_error_witness :
    pushToFly pushEnvC3 2 "img:1" = some none :=
  c3_pushToFly_swallows_terminal_error pushEnvC3 2 "img:1" .contextErr
    [pushErrC3] [] (by decide) (by decide)

/-! ## Claim C4 -/

/-- The error produced by a push attempt denied by the registry: the
JSONError from the status stream, wrapped by `pushFn`. -/
def deniedPushErr : GoError :=
  .wrapped "error rendering push status stream" (.jsonError deniedMessage)

def pushEnvC4 : RetryEnv :=
  { attemptErr := fun _ => some deniedPushErr
    ctxDoneInitially := false
    ctxDoneDuringWait := fun i => i == 1 }

def envC4 : RunEnv := { envBase with push := pushEnvC4 }

def optsC4 : ImageOptions := { optsBase with Publish := true }

/-- Claim C4 is false on the code at a concrete input: with `Attempts(0)`
the retry loop never surfaces the denied error itself — an always-denied
push is retried until the caller context is cancelled, the loop returns the
context error, `pushToFly` discards it and returns nil, and `Run` (publish
set) proceeds to the publish-success exit (`os.Exit(1)`) instead of
returning an authorization error carrying the tag. -/
theorem c4_counterexample :
    Run envC4 5 optsC4 =
      { outcome := .exited 1
        events := [.buildStart, .builderInitStart, .builderInitFinish,
          .contextBuildStart, .contextBuildFinish, .imageBuildStart,
          .imageBuildFinish, .buildFinish, .pushStart, .pushFinish] } ∧
    pushToFly pushEnvC4 5 "img:1" = some none ∧
    pushToFly pushEnvC4 5 "img:1" ≠ some (some (.registryUnauthorized "img:1")) := by
  refine ⟨by decide, by decide, by decide⟩

/-- Claim C4 (amended): a push operation that always fails — in particular
one always denied by the registry — is retried until the caller context is
cancelled; the retry loop then terminates with the context error, and
`pushToFly` returns nil (no authorization error carrying the tag is ever
produced, the classification branch being unreachable and the terminal
error discarded). -/
theorem c4_amended (env : RetryEnv) (fuel k : Nat) (tag : String) (e : GoError)
    (hfail : ∀ i, env.attemptErr i = some e)
    (hinit : env.ctxDoneInitially = false)
    (hdw : ∀ i, env.ctxDoneDuringWait i = (i == k))
    (hfuel : k < fuel) :
    retryOutcomeErr (retryDo env fuel) = some (some .contextErr) ∧
    pushToFly env fuel tag = some none := by
  obtain ⟨log2, waits2, heq⟩ :=
    retryLoopAux_cancelled env k e hfail hdw fuel 0 [] [] (Nat.zero_le k) (by omega)
  have hdo : retryDo env fuel = .done (some .contextErr) log2 waits2 := by
    unfold retryDo
    rw [hinit]
    simpa using heq
  constructor
  · rw [hdo]; rfl
  · unfold pushToFly
    rw [hdo]
    rfl

/-- Witness for C4 (amended): the always-denied push of the counterexample
environment. -/
theorem c4_amended_witness :
    retryOutcomeErr (retryDo pushEnvC4 5) = some (some .contextErr) ∧
    pushToFly pushEnvC4 5 "img:1" = some none :=
  c4_amended pushEnvC4 5 1 "img:1" deniedPushErr (fun _ => rfl) rfl (fun _ => rfl)
    (by omega)

/-! ## Claim C9 -/

/-- Claim C9: the push retry loop uses a fixed 3-second delay and unlimited
attempts, aborting when the caller context is cancelled; a push that fails
twice with a transient error and succeeds on the third call yields success
with exactly three invocations, each failed attempt reported to the
retry-observer hook before the next, each wait being the fixed delay. -/
theorem c9_retry_policy :
    (∀ (env : RetryEnv) (e1 e2 : GoError) (fuel : Nat),
      env.ctxDoneInitially = false →
      env.attemptErr 0 = some e1 →
      env.attemptErr 1 = some e2 →
      env.attemptErr 2 = none →
      env.ctxDoneDuringWait 0 = false →
      env.ctxDoneDuringWait 1 = false →
      3 ≤ fuel →
      retryDo env fuel = .done none [e1, e2] [fixedDelaySecs, fixedDelaySecs] ∧
        fixedDelaySecs = 3) ∧
    (∀ (env : RetryEnv) (e : GoError) (fuel : Nat),
      env.ctxDoneInitially = false →
      env.attemptErr 0 = some e →
      env.ctxDoneDuringWait 0 = true →
      1 ≤ fuel →
      retryDo env fuel = .done (some .contextErr) [e] []) := by
  constructor
  · intro env e1 e2 fuel hinit h0 h1 h2 hw0 hw1 hfuel
    refine ⟨?_, rfl⟩
    unfold retryDo
    rw [hinit]
    simp only [Bool.false_eq_true, if_false]
    rw [retryLoopAux_succ env fuel 0 [] [] (by omega), h0]
    simp only [hw0, Bool.false_eq_true, if_false]
    rw [retryLoopAux_succ env (fuel - 1) 1 _ _ (by omega), h1]
    simp only [hw1, Bool.false_eq_true, if_false]
    rw [retryLoopAux_succ env (fuel - 1 - 1) 2 _ _ (by omega), h2]
    simp
  · intro env e fuel hinit h0 hw0 hfuel
    unfold retryDo
    rw [hinit]
    simp only [Bool.false_eq_true, if_false]
    rw [retryLoopAux_succ env fuel 0 [] [] (by omega), h0]
    simp [hw0]

def pushEnvC9 : RetryEnv :=
  { attemptErr := fun i => if i < 2 then some (.plain "transient") else none
    ctxDoneInitially := false
    ctxDoneDuringWait := fun _ => false }

def pushEnvC9b : RetryEnv :=
  { attemptErr := fun _ => some (.plain "transient")
    ctxDoneInitially := false
    ctxDoneDuringWait := fun _ => true }

/-- Witness for C9: both conjuncts at concrete pushes. -/
theorem c9_retry_policy_witness :
    (retryDo pushEnvC9 3 = .done none [.plain "transient", .plain "transient"]
        [fixedDelaySecs, fixedDelaySecs] ∧ fixedDelaySecs = 3) ∧
    retryDo pushEnvC9b 1 = .done (some .contextErr) [.plain "transient"] [] := by
  constructor
  · exact c9_retry_policy.1 pushEnvC9 (.plain "transient") (.plain "transient") 3
      rfl (by decide) (by decide) (by decide) rfl rfl (by omega)
  · exact c9_retry_policy.2 pushEnvC9b (.plain "transient") 1 rfl rfl rfl (by omega)

/-! ## Claim C5 -/

theorem run_no_handle (env : RunEnv) (fuel : Nat) (opts : ImageOptions)
    (hp : opts.Publish = true) :
    (Run env fuel opts).outcome = .exited 1 ∨
    (Run env fuel opts).outcome = .blocked ∨
    ∃ e, (Run env fuel opts).outcome = .ret none "" e := by
  unfold Run runAfterInit runImageBuild
  rw [hp]
  simp only [if_true]
  repeat' split
  all_goals first
    | exact Or.inl rfl
    | exact Or.inr (Or.inl rfl)
    | exact Or.inr (Or.inr ⟨_, rfl⟩)

/-- Claim C5: with the publish flag set `Run` never returns an image handle
to its caller — every outcome is either an error return with no image, a
blocked retry loop, or process termination — and on the publish-success
path (daemon available, dockerfile found, session backend succeeds, push
succeeds) `Run` terminates the process via `os.Exit(1)` after the push
completes, so the handle-returning code after it is unreachable. -/
theorem c5_publish_never_returns_handle :
    (∀ (env : RunEnv) (fuel : Nat) (opts : ImageOptions), opts.Publish = true →
      (Run env fuel opts).outcome = .exited 1 ∨
      (Run env fuel opts).outcome = .blocked ∨
      ∃ e, (Run env fuel opts).outcome = .ret none "" e) ∧
    (∀ (env : RunEnv) (fuel : Nat) (opts : ImageOptions) (df d : String)
        (info : ServerInfo),
      opts.Publish = true →
      env.modeAvailable = true →
      opts.DockerfilePath = "" →
      env.resolveDockerfile opts.WorkingDir = df →
      df ≠ "" →
      env.isPathInRoot df opts.WorkingDir = false →
      env.buildFn = .ok () →
      env.buildkitEnabled = .ok true →
      env.dockerInfo = .ok info →
      env.buildkitBuild = .ok d →
      env.push.ctxDoneInitially = false →
      env.push.attemptErr 0 = none →
      1 ≤ fuel →
      (Run env fuel opts).outcome = .exited 1) := by
  constructor
  · exact run_no_handle
  · intro env fuel opts df d info hp hm hdp hrdf hdf hroot hbf hbk hinfo hbb hpi hp0 hfuel
    have hpush : pushToFly env.push fuel opts.Tag = some none := by
      unfold pushToFly retryDo
      rw [hpi]
      simp only [Bool.false_eq_true, if_false]
      rw [retryLoopAux_succ _ fuel 0 [] [] (by omega), hp0]
      rfl
    simp [Run, resolveStep, relDockerfileCalc, runAfterInit, runImageBuild,
      normalizeBuildArgsForDocker, hm, hdp, hrdf, hdf, hroot, hbf, hbk, hinfo, hbb,
      hp, hpush]

def envC5 : RunEnv := { envBase with isPathInRoot := fun _ _ => false, buildkitEnabled := .ok true }

/-- Witness for C5: a concrete publish run that exits the process. -/
theorem c5_publish_never_returns_handle_witness :
    ((Run envC5 1 optsC4).outcome = .exited 1 ∨
      (Run envC5 1 optsC4).outcome = .blocked ∨
      ∃ e, (Run envC5 1 optsC4).outcome = .ret none "" e) ∧
    (Run envC5 1 optsC4).outcome = .exited 1 := by
  constructor
  · exact c5_publish_never_returns_handle.1 envC5 1 optsC4 rfl
  · exact c5_publish_never_returns_handle.2 envC5 1 optsC4 "Dockerfile" "sha256:abc"
      { serverVersion := "24.0", osType := "linux", architecture := "x86_64", osVersion := "" }
      rfl rfl rfl rfl (by decide) rfl rfl rfl rfl rfl rfl rfl (by omega)

/-! ## Claim C6 -/

/-- Consuming a stream whose non-terminal messages carry no error and whose
terminal message carries the image id in its aux payload captures that id
through the callback. -/
theorem displayStream_capture (ms : List JSONMessage) (i : String)
    (h : ∀ m ∈ ms, m.error = none) :
    ∀ s, displayJSONMessagesStream
        (ms ++ [{ aux := some (.wellFormed i), error := none }]) s = (none, i) := by
  induction ms with
  | nil => intro s; rfl
  | cons m rest ih =>
    intro s
    have hm : m.error = none := h m (List.mem_cons_self _ _)
    rw [List.cons_append]
    simp only [displayJSONMessagesStream, hm]
    exact ih (fun x hx => h x (List.mem_cons_of_mem _ hx)) _

/-- Claim C6: on the classic path with publish unset, when the build stream
delivers image id `sha256:abc` in the terminal message's aux payload
(captured via the message callback) and image inspection reports size 1024,
`Run` returns the handle `{ID := sha256:abc, Tag := img:1, Size := 1024}`
for tag `img:1`. -/
theorem c6_classic_build_returns_handle (env : RunEnv) (fuel : Nat) (opts : ImageOptions)
    (ms : List JSONMessage) (info : ServerInfo)
    (hm : env.modeAvailable = true)
    (hdp : opts.DockerfilePath = "/app/Dockerfile")
    (hwd : opts.WorkingDir = "/app")
    (hfe : env.fileExists "/app/Dockerfile" = true)
    (hroot : env.isPathInRoot "/app/Dockerfile" "/app" = true)
    (hrel : env.rel "/app" "/app/Dockerfile" = .ok "Dockerfile")
    (hslash : env.toSlash "Dockerfile" = "Dockerfile")
    (hbf : env.buildFn = .ok ())
    (hbk : env.buildkitEnabled = .ok false)
    (hign : ∀ s, env.readDockerignore "/app" opts.IgnorefilePath s = .ok [])
    (harch : ∀ a, env.archiveDirectory a = .ok ())
    (hinfo : env.dockerInfo = .ok info)
    (hib : env.imageBuild =
      .ok (ms ++ [{ aux := some (.wellFormed "sha256:abc"), error := none }]))
    (hmsgs : ∀ m ∈ ms, m.error = none)
    (hpub : opts.Publish = false)
    (htag : opts.Tag = "img:1")
    (hins : env.imageInspect "sha256:abc" = .ok { id := "sha256:abc", size := 1024 }) :
    (Run env fuel opts).outcome =
      .ret (some { ID := "sha256:abc", Tag := "img:1", Size := 1024 }) "" none := by
  have hds := displayStream_capture ms "sha256:abc" hmsgs ""
  simp [Run, resolveStep, relDockerfileCalc, runAfterInit, runImageBuild, makeBuildContext,
    runClassicBuild, normalizeBuildArgsForDocker, hm, hdp, hwd, hfe, hroot, hrel, hslash,
    hbf, hbk, hign, harch, hinfo, hib, hds, hpub, htag, hins]

def envC6 : RunEnv := { envBase with rel := fun _ _ => .ok "Dockerfile" }

def optsC6 : ImageOptions := { optsBase with DockerfilePath := "/app/Dockerfile" }

/-- Witness for C6: the scenario of the spec at a concrete environment. -/
theorem c6_classic_build_returns_handle_witness :
    (Run envC6 1 optsC6).outcome =
      .ret (some { ID := "sha256:abc", Tag := "img:1", Size := 1024 }) "" none :=
  c6_classic_build_returns_handle envC6 1 optsC6 []
    { serverVersion := "24.0", osType := "linux", architecture := "x86_64", osVersion := "" }
    rfl rfl rfl rfl rfl rfl rfl rfl rfl (fun _ => rfl) (fun _ => rfl) rfl rfl
    (fun m hm => absurd hm (List.not_mem_nil m)) rfl rfl rfl

/-! ## Claim C7 -/

/-- Claim C7: packaging the build context passes a root-relative dockerfile
path to the backend and injects nothing when the dockerfile lies inside the
working directory; when it lies outside, the dockerfile's bytes are
injected into the archive under the canonical name `Dockerfile` and the
relative path stays empty. -/
theorem c7_dockerfile_placement (env : RunEnv) (opts : ImageOptions) (df p data : String)
    (ex : List String) (r : Bool)
    (hign : ∀ s, env.readDockerignore opts.WorkingDir opts.IgnorefilePath s = .ok ex)
    (harch : ∀ a, env.archiveDirectory a = .ok ()) :
    (env.isPathInRoot df opts.WorkingDir = true →
      env.rel opts.WorkingDir df = .ok p →
      makeBuildContext env df opts r =
        .ok { sourcePath := opts.WorkingDir, compressed := r
              additions := [], exclusions := ex } ∧
      relDockerfileCalc env df opts = .ok (env.toSlash p)) ∧
    (env.isPathInRoot df opts.WorkingDir = false →
      env.readFile df = .ok data →
      makeBuildContext env df opts r =
        .ok { sourcePath := opts.WorkingDir, compressed := r
              additions := [("Dockerfile", data)], exclusions := ex } ∧
      relDockerfileCalc env df opts = .ok "") := by
  constructor
  · intro hroot hrel
    constructor
    · simp [makeBuildContext, hroot, hrel, hign, harch]
    · simp [relDockerfileCalc, hroot, hrel]
  · intro hroot hrd
    constructor
    · simp [makeBuildContext, hroot, hrd, hign, harch]
    · simp [relDockerfileCalc, hroot]

def envC7out : RunEnv := { envBase with isPathInRoot := fun _ _ => false }

/-- Witness for C7: both placements at concrete environments. -/
theorem c7_dockerfile_placement_witness :
    (makeBuildContext envBase "/app/Dockerfile" optsBase false =
        .ok { sourcePath := "/app", compressed := false, additions := [], exclusions := [] } ∧
      relDockerfileCalc envBase "/app/Dockerfile" optsBase = .ok "/app/Dockerfile") ∧
    (makeBuildContext envC7out "/app/Dockerfile" optsBase false =
        .ok { sourcePath := "/app", compressed := false
              additions := [("Dockerfile", "FROM scratch")], exclusions := [] } ∧
      relDockerfileCalc envC7out "/app/Dockerfile" optsBase = .ok "") := by
  constructor
  · exact (c7_dockerfile_placement envBase optsBase "/app/Dockerfile" "/app/Dockerfile"
      "FROM scratch" [] false (fun _ => rfl) (fun _ => rfl)).1 rfl rfl
  · exact (c7_dockerfile_placement envC7out optsBase "/app/Dockerfile" "/app/Dockerfile"
      "FROM scratch" [] false (fun _ => rfl) (fun _ => rfl)).2 rfl rfl

/-! ## Claim C8 -/

theorem addLabels_cons (kv : String × String) (t : List (String × String))
    (m : String → Option String) :
    addLabels (kv :: t) m = addLabels t (mapUpd m ("label:" ++ kv.1) kv.2) := rfl

theorem addBuildArgs_cons (kv : String × Option String) (t : List (String × Option String))
    (m : String → Option String) :
    addBuildArgs (kv :: t) m =
      addBuildArgs t
        (match kv.2 with
          | none => m
          | some v => mapUpd m ("build-arg:" ++ kv.1) v) := rfl

/-- A key touched by no label entry is left unchanged by the label loop. -/
theorem addLabels_eq_of_ne : ∀ (l : List (String × String)) (m : String → Option String)
    (q : String), (∀ kv ∈ l, "label:" ++ kv.1 ≠ q) → addLabels l m q = m q := by
  intro l
  induction l with
  | nil => intro m q _; rfl
  | cons kv t ih =>
    intro m q h
    rw [addLabels_cons, ih _ _ (fun x hx => h x (List.mem_cons_of_mem _ hx))]
    unfold mapUpd
    rw [if_neg (fun hq => h kv (List.mem_cons_self _ _) hq.symm)]

/-- A key touched by no build-arg entry is left unchanged by the build-arg
loop. -/
theorem addBuildArgs_eq_of_ne : ∀ (l : List (String × Option String))
    (m : String → Option String) (q : String),
    (∀ kv ∈ l, "build-arg:" ++ kv.1 ≠ q) → addBuildArgs l m q = m q := by
  intro l
  induction l with
  | nil => intro m q _; rfl
  | cons kv t ih =>
    intro m q h
    rw [addBuildArgs_cons, ih _ _ (fun x hx => h x (List.mem_cons_of_mem _ hx))]
    cases hv : kv.2 with
    | none => rfl
    | some v =>
      show (if q = "build-arg:" ++ kv.1 then some v else m q) = m q
      rw [if_neg (fun hq => h kv (List.mem_cons_self _ _) hq.symm)]

/-- With distinct label keys, the label loop stores each entry under its
prefixed key. -/
theorem addLabels_lookup : ∀ (l : List (String × String)) (m : String → Option String),
    (l.map Prod.fst).Nodup → ∀ k v, (k, v) ∈ l →
    addLabels l m ("label:" ++ k) = some v := by
  intro l
  induction l with
  | nil => intro m _ k v hmem; cases hmem
  | cons kv t ih =>
    intro m hnd k v hmem
    rw [addLabels_cons]
    rcases List.mem_cons.mp hmem with heq | hmem2
    · subst heq
      have hk : k ∉ t.map Prod.fst := by
        rw [List.map_cons, List.nodup_cons] at hnd
        exact hnd.1
      rw [addLabels_eq_of_ne t _ _ (fun x hx hq =>
        hk (by rw [← string_append_cancel_left hq]; exact List.mem_map_of_mem Prod.fst hx))]
      unfold mapUpd
      rw [if_pos rfl]
    · exact ih _ (by rw [List.map_cons, List.nodup_cons] at hnd; exact hnd.2) k v hmem2

/-- With distinct build-arg keys, the build-arg loop stores each resolved
entry under its prefixed key. -/
theorem addBuildArgs_lookup : ∀ (l : List (String × Option String))
    (m : String → Option String), (l.map Prod.fst).Nodup → ∀ k v, (k, some v) ∈ l →
    addBuildArgs l m ("build-arg:" ++ k) = some v := by
  intro l
  induction l with
  | nil => intro m _ k v hmem; cases hmem
  | cons kv t ih =>
    intro m hnd k v hmem
    rw [addBuildArgs_cons]
    rcases List.mem_cons.mp hmem with heq | hmem2
    · subst heq
      have hk : k ∉ t.map Prod.fst := by
        rw [List.map_cons, List.nodup_cons] at hnd
        exact hnd.1
      rw [addBuildArgs_eq_of_ne t _ _ (fun x hx hq =>
        hk (by rw [← string_append_cancel_left hq]; exact List.mem_map_of_mem Prod.fst hx))]
      simp [mapUpd]
    · exact ih _ (by rw [List.map_cons, List.nodup_cons] at hnd; exact hnd.2) k v hmem2

/-- Any key the label loop populates is a prefixed label key (or was already
populated). -/
theorem addLabels_domain : ∀ (l : List (String × String)) (m : String → Option String)
    (q : String), addLabels l m q ≠ none →
    m q ≠ none ∨ ∃ kv ∈ l, q = "label:" ++ kv.1 := by
  intro l
  induction l with
  | nil => intro m q h; exact Or.inl h
  | cons kv t ih =>
    intro m q h
    rw [addLabels_cons] at h
    rcases ih _ _ h with hm | ⟨kv2, hkv2, hq⟩
    · unfold mapUpd at hm
      by_cases hq : q = "label:" ++ kv.1
      · exact Or.inr ⟨kv, List.mem_cons_self _ _, hq⟩
      · rw [if_neg hq] at hm
        exact Or.inl hm
    · exact Or.inr ⟨kv2, List.mem_cons_of_mem _ hkv2, hq⟩

/-- Any key the build-arg loop populates is a prefixed build-arg key of a
resolved entry (or was already populated). -/
theorem addBuildArgs_domain : ∀ (l : List (String × Option String))
    (m : String → Option String) (q : String), addBuildArgs l m q ≠ none →
    m q ≠ none ∨ ∃ k v, (k, some v) ∈ l ∧ q = "build-arg:" ++ k := by
  intro l
  induction l with
  | nil => intro m q h; exact Or.inl h
  | cons kv t ih =>
    intro m q h
    rw [addBuildArgs_cons] at h
    rcases ih _ _ h with hm | ⟨k, v, hkv, hq⟩
    · cases hv : kv.2 with
      | none =>
        rw [hv] at hm
        exact Or.inl hm
      | some v =>
        rw [hv] at hm
        have hm2 : (if q = "build-arg:" ++ kv.1 then some v else m q) ≠ none := hm
        by_cases hq : q = "build-arg:" ++ kv.1
        · exact Or.inr ⟨kv.1, v, by rw [← hv]; exact List.mem_cons_self _ _, hq⟩
        · rw [if_neg hq] at hm2
          exact Or.inl hm2
    · exact Or.inr ⟨k, v, List.mem_cons_of_mem _ hkv, hq⟩

/-- Claim C8: the solve request has the dockerfile frontend; its attributes
map contains exactly `filename` (the dockerfile's base name), `target`, the
platform pin, a `no-cache` marker iff the no-cache flag is set, one
`label:k` entry per label and one `build-arg:k` entry per resolved build
argument; the local directory bindings map the dockerfile's containing
directory and the working directory; and the export entry keeps the image
in the daemon's local store (`moby` exporter) under the requested tag. -/
theorem c8_solve_request (opts : ImageOptions) (df : String)
    (args : List (String × Option String))
    (hl : (opts.Label.map Prod.fst).Nodup)
    (ha : (args.map Prod.fst).Nodup) :
    (solveOptFromImageOptions opts df args).frontend = "dockerfile.v0" ∧
    (solveOptFromImageOptions opts df args).frontendAttrs "filename" =
      some (filepathBase df) ∧
    (solveOptFromImageOptions opts df args).frontendAttrs "target" = some opts.Target ∧
    (solveOptFromImageOptions opts df args).frontendAttrs "platform" =
      some ("linux/amd64") ∧
    (solveOptFromImageOptions opts df args).frontendAttrs "no-cache" =
      (if opts.NoCache then some "" else none) ∧
    (∀ k v, (k, v) ∈ opts.Label →
      (solveOptFromImageOptions opts df args).frontendAttrs ("label:" ++ k) = some v) ∧
    (∀ k v, (k, some v) ∈ args →
      (solveOptFromImageOptions opts df args).frontendAttrs ("build-arg:" ++ k) = some v) ∧
    (∀ q, (solveOptFromImageOptions opts df args).frontendAttrs q ≠ none →
      q = "filename" ∨ q = "target" ∨ q = "platform" ∨
      (q = "no-cache" ∧ opts.NoCache = true) ∨
      (∃ kv ∈ opts.Label, q = "label:" ++ kv.1) ∨
      (∃ k v, (k, some v) ∈ args ∧ q = "build-arg:" ++ k)) ∧
    (solveOptFromImageOptions opts df args).localDirs =
      [("dockerfile", filepathDir df), ("context", opts.WorkingDir)] ∧
    (solveOptFromImageOptions opts df args).exports =
      [{ type := "moby", attrs := [("name", opts.Tag)] }] := by
  have hattrs : (solveOptFromImageOptions opts df args).frontendAttrs =
      addBuildArgs args (addLabels opts.Label
        (if opts.NoCache then
          mapUpd (mapUpd (baseAttrs opts df) "target" opts.Target) "no-cache" ""
        else mapUpd (baseAttrs opts df) "target" opts.Target)) := rfl
  refine ⟨rfl, ?_, ?_, ?_, ?_, ?_, ?_, ?_, rfl, rfl⟩
  · rw [hattrs,
      addBuildArgs_eq_of_ne args _ _ (fun kv _ => append_ne_of_take _ _ _ (by decide)),
      addLabels_eq_of_ne opts.Label _ _ (fun kv _ => append_ne_of_take _ _ _ (by decide))]
    cases hnc : opts.NoCache <;> simp [mapUpd, baseAttrs]
  · rw [hattrs,
      addBuildArgs_eq_of_ne args _ _ (fun kv _ => append_ne_of_take _ _ _ (by decide)),
      addLabels_eq_of_ne opts.Label _ _ (fun kv _ => append_ne_of_take _ _ _ (by decide))]
    cases hnc : opts.NoCache <;> simp [mapUpd, baseAttrs]
  · rw [hattrs,
      addBuildArgs_eq_of_ne args _ _ (fun kv _ => append_ne_of_take _ _ _ (by decide)),
      addLabels_eq_of_ne opts.Label _ _ (fun kv _ => append_ne_of_take _ _ _ (by decide))]
    cases hnc : opts.NoCache <;> simp [mapUpd, baseAttrs]
  · rw [hattrs,
      addBuildArgs_eq_of_ne args _ _ (fun kv _ => append_ne_of_take _ _ _ (by decide)),
      addLabels_eq_of_ne opts.Label _ _ (fun kv _ => append_ne_of_take _ _ _ (by decide))]
    cases hnc : opts.NoCache <;> simp [mapUpd, baseAttrs]
  · intro k v hmem
    rw [hattrs, addBuildArgs_eq_of_ne args _ _ (fun kv _ =>
      append_ne_append_of_take _ _ _ _ 6 (by decide) (by decide) (by decide))]
    exact addLabels_lookup opts.Label _ hl k v hmem
  · intro k v hmem
    rw [hattrs]
    exact addBuildArgs_lookup args _ ha k v hmem
  · intro q hq
    rw [hattrs] at hq
    rcases addBuildArgs_domain args _ q hq with hm | ⟨k, v, hkv, hqeq⟩
    · rcases addLabels_domain opts.Label _ q hm with hm2 | ⟨kv, hkv, hqeq⟩
      · by_cases hf : q = "filename"
        · exact Or.inl hf
        by_cases ht : q = "target"
        · exact Or.inr (Or.inl ht)
        by_cases hpl : q = "platform"
        · exact Or.inr (Or.inr (Or.inl hpl))
        by_cases hnc2 : q = "no-cache"
        · cases hnc : opts.NoCache with
          | true => exact Or.inr (Or.inr (Or.inr (Or.inl ⟨hnc2, rfl⟩)))
          | false => simp [hnc, hnc2, mapUpd, baseAttrs] at hm2
        · cases hnc : opts.NoCache <;>
            simp [hnc, mapUpd, baseAttrs, hf, ht, hpl, hnc2] at hm2
      · exact Or.inr (Or.inr (Or.inr (Or.inr (Or.inl ⟨kv, hkv, hqeq⟩))))
    · exact Or.inr (Or.inr (Or.inr (Or.inr (Or.inr ⟨k, v, hkv, hqeq⟩))))

def optsC8 : ImageOptions :=
  { optsBase with Target := "prod", NoCache := true, Label := [("team", "x")] }

def argsC8 : List (String × Option String) := [("A", some "1"), ("B", none)]

/-- Witness for C8: the solve request at a concrete spec. -/
theorem c8_solve_request_witness :
    (solveOptFromImageOptions optsC8 "/app/sub/Dockerfile" argsC8).frontendAttrs
        "filename" = some "Dockerfile" ∧
    (solveOptFromImageOptions optsC8 "/app/sub/Dockerfile" argsC8).frontendAttrs
        ("label:" ++ "team") = some "x" ∧
    (solveOptFromImageOptions optsC8 "/app/sub/Dockerfile" argsC8).frontendAttrs
        ("build-arg:" ++ "A") = some "1" ∧
    (solveOptFromImageOptions optsC8 "/app/sub/Dockerfile" argsC8).localDirs =
      [("dockerfile", "/app/sub"), ("context", "/app")] := by
  obtain ⟨-, h2, -, -, -, h6, h7, -, h9, -⟩ :=
    c8_solve_request optsC8 "/app/sub/Dockerfile" argsC8 (by decide) (by decide)
  refine ⟨?_, h6 "team" "x" (by decide), h7 "A" "1" (by decide), ?_⟩
  · rw [h2]
    decide
  · rw [h9]
    decide

end Imgsrc
